import Mathlib

/-!
Verification of the ngx-named-router core: the route registry builder
(`NamedRouteService`) and the path-interpolation engine
(`NamedRouterService.interpolatePathParams`), shallowly embedded from
`projects/ngx-named-router/src/lib/services/named-router.service.ts` and
the error classes in `lib/errors/errors.ts`.

TypeScript strings are modelled as Lean `String` (operating on `.data`
character lists where the source uses `startsWith` / `endsWith` /
`substring` / `slice` / `indexOf`).  The asynchronous initialization
lifecycle is modelled as an explicit state machine: `initializeCall` is
the synchronous prefix of `initialize()` (the coalescing logic), and
`performInitialization` is the body of the in-flight build, which in the
source runs to completion before any other mutation of the service state.
-/

namespace NgxNamedRouter

/-- A route-parameter value: the source type `RouteParams` maps keys to
`string | number`. -/
inductive ParamValue where
  | str (s : String)
  | num (n : Int)

/-- JavaScript `String(value)` for the values admitted by `RouteParams`
(numbers print in decimal). -/
def valueToString : ParamValue → String
  | .str s => s
  | .num n => toString n

/-- Modelled from the spec: the set of characters the JS builtin
`encodeURIComponent` leaves unescaped (ASCII alphanumerics and
`- _ . ! ~ * ' ( )`); the builtin is part of the platform, not of the
repository source. -/
def isUnreservedChar (c : Char) : Bool :=
  let n := c.toNat
  (65 ≤ n && n ≤ 90) || (97 ≤ n && n ≤ 122) || (48 ≤ n && n ≤ 57) ||
  n == 45 || n == 95 || n == 46 || n == 33 || n == 126 || n == 42 ||
  n == 39 || n == 40 || n == 41

/-- Hex digit for a value below 16, uppercase (as `encodeURIComponent`
produces). -/
def toHexDigit (n : Nat) : Char :=
  if n < 10 then Char.ofNat (48 + n) else Char.ofNat (55 + n)

/-- UTF-8 byte sequence of a code point. -/
def utf8Bytes (n : Nat) : List Nat :=
  if n < 128 then [n]
  else if n < 2048 then [192 + n / 64, 128 + n % 64]
  else if n < 65536 then [224 + n / 4096, 128 + n / 64 % 64, 128 + n % 64]
  else [240 + n / 262144, 128 + n / 4096 % 64, 128 + n / 64 % 64, 128 + n % 64]

/-- One percent-escape, `%HH`. -/
def byteToPercent (b : Nat) : List Char :=
  ['%', toHexDigit (b / 16), toHexDigit (b % 16)]

/-- Modelled from the spec: `encodeURIComponent` on one character. -/
def encodeChar (c : Char) : List Char :=
  if isUnreservedChar c then [c]
  else (utf8Bytes c.toNat).flatMap byteToPercent

/-- Modelled from the spec: the JS builtin `encodeURIComponent`
(standard URL-component percent-encoding). -/
def encodeURIComponent (s : String) : String :=
  String.mk (s.data.flatMap encodeChar)

/-- Value of a hex digit character, if it is one. -/
def hexVal (c : Char) : Option Nat :=
  let n := c.toNat
  if 48 ≤ n && n ≤ 57 then some (n - 48)
  else if 65 ≤ n && n ≤ 70 then some (n - 55)
  else if 97 ≤ n && n ≤ 102 then some (n - 87)
  else none

/-- Modelled from the spec: first phase of standard percent-decoding —
turn the character sequence into a byte sequence, replacing each `%HH`
escape by its byte and each literal character by its UTF-8 bytes. -/
def percentToBytes : List Char → List Nat
  | [] => []
  | '%' :: rest =>
    match rest with
    | h1 :: h2 :: rest2 =>
      match hexVal h1, hexVal h2 with
      | some a, some b => (16 * a + b) :: percentToBytes rest2
      | _, _ => utf8Bytes '%'.toNat ++ percentToBytes (h1 :: h2 :: rest2)
    | rest1 => utf8Bytes '%'.toNat ++ percentToBytes rest1
  | c :: rest => utf8Bytes c.toNat ++ percentToBytes rest

/-- Modelled from the spec: second phase of standard percent-decoding —
UTF-8 decoding of the byte sequence (ill-formed suffixes are dropped;
they never arise on encoder output). -/
def utf8DecodeList (l : List Nat) : List Char :=
  match l with
  | [] => []
  | b :: rest =>
    if b < 128 then Char.ofNat b :: utf8DecodeList rest
    else if b < 224 then
      if rest.length < 1 then []
      else Char.ofNat ((b - 192) * 64 + (rest.headD 0 - 128)) ::
        utf8DecodeList (rest.drop 1)
    else if b < 240 then
      if rest.length < 2 then []
      else Char.ofNat ((b - 224) * 4096 + (rest.headD 0 - 128) * 64 +
          ((rest.drop 1).headD 0 - 128)) :: utf8DecodeList (rest.drop 2)
    else
      if rest.length < 3 then []
      else Char.ofNat ((b - 240) * 262144 + (rest.headD 0 - 128) * 4096 +
          ((rest.drop 1).headD 0 - 128) * 64 + ((rest.drop 2).headD 0 - 128)) ::
        utf8DecodeList (rest.drop 3)
termination_by l.length
decreasing_by all_goals (simp; try omega)

/-- Modelled from the spec: the JS builtin `decodeURIComponent`
(standard URL-component percent-decoding). -/
def decodeURIComponent (s : String) : String :=
  String.mk (utf8DecodeList (percentToBytes s.data))

/-- Modelled from the spec: the JS builtin `String.prototype.split` with
the one-character separator `/` (the builtin is part of the platform, not
of the repository source). -/
def splitSlash : List Char → List (List Char)
  | [] => [[]]
  | c :: rest =>
    if c == '/' then [] :: splitSlash rest
    else
      match splitSlash rest with
      | [] => [[c]]
      | s :: ss => (c :: s) :: ss

/-- Loop body of `interpolatePathParams` (named-router.service.ts,
lines 188-219): the accumulator carries the `result` and `missingParams`
arrays; `segment.startsWith(':')`, `segment.endsWith('?')`,
`substring(1)`, `slice(0, -1)` and `substring(0, indexOf('('))` are
expressed on the character list of the segment. -/
def processSegment (routeParams : List (String × ParamValue))
    (acc : List String × List String) (segment : List Char) :
    List String × List String :=
  if segment.head? = some ':' then
    let isOptional := segment.getLast? = some '?'
    let paramName0 := segment.drop 1
    let paramName1 := if isOptional then paramName0.dropLast else paramName0
    let paramName := String.mk (paramName1.takeWhile (fun c => c != '('))
    match routeParams.lookup paramName with
    | some v => (acc.1 ++ [encodeURIComponent (valueToString v)], acc.2)
    | none => if isOptional then acc else (acc.1, acc.2 ++ [paramName])
  else (acc.1 ++ [String.mk segment], acc.2)

/-- `NamedRouterService.interpolatePathParams` (lines 179-228): empty
pattern yields `['/']`; otherwise split on `/`, drop empty pieces, fold
the loop body, and throw listing the missing parameters if any were
recorded. -/
def interpolatePathParams (pathPattern : String)
    (routeParams : List (String × ParamValue)) : Except String (List String) :=
  if pathPattern = "" then .ok ["/"]
  else
    let segments := (splitSlash pathPattern.data).filter (fun s => 0 < s.length)
    let acc := segments.foldl (processSegment routeParams) ([], [])
    if acc.2 = [] then .ok acc.1
    else .error ("Missing required route parameters: " ++ String.intercalate ", " acc.2)

/-! ## Registry builder (`NamedRouteService`) -/

/-- A single quote character, used when rebuilding the source's error
message strings. -/
def sq : String := "'"

/-- The error hierarchy of `lib/errors/errors.ts`: `NamedRouteError`
(carrying a message) and its subclass `DuplicateRouteNameError`
(carrying the route name, the previously stored path and the newly
computed path). -/
inductive NamedError where
  | named (msg : String)
  | duplicate (routeName existingPath newPath : String)

/-- The `message` property of the error objects; for
`DuplicateRouteNameError` this is the string built in its constructor. -/
def NamedError.message : NamedError → String
  | .named msg => msg
  | .duplicate n e p =>
    "Duplicate route name " ++ sq ++ n ++ sq ++ " detected. Existing path: " ++
    sq ++ e ++ sq ++ ", New path: " ++ sq ++ p ++ sq ++
    ". Route names must be unique across the entire application."

mutual
/-- A route-configuration node (`NamedRoute extends Route`): `path` and
`name` are strings (`""` models a falsy/absent value, which the source
treats identically), `children` is the child list (`[]` models an absent
array, over which the traversal loop does nothing), and `lazyLoader`
models `loadChildren`. -/
inductive RouteNode where
  | mk (path : String) (name : String) (children : List RouteNode)
      (lazyLoader : Option LazyLoader)

/-- The eventual outcome of awaiting `route.loadChildren!()`: the
promise either rejects with an error message or resolves to a value of
one of the shapes `extractRoutesFromLazyModule` distinguishes. -/
inductive LazyLoader where
  | rejects (msg : String)
  | resolves (value : LazyValue)

/-- Shapes of a resolved lazy-module value, one constructor per branch
of `extractRoutesFromLazyModule`: a direct `Routes` array, an ES-module
`default` export, a `routes` property, a module-like value (carrying the
routes that `extractRoutesFromNgModule` would retrieve from the
injector's `ROUTES` token or the static `routes` property), or an
unrecognized shape (which contributes no routes, with a warning). -/
inductive LazyValue where
  | directArray (routes : List RouteNode)
  | defaultExport (routes : List RouteNode)
  | routesExport (routes : List RouteNode)
  | moduleLike (extracted : List RouteNode)
  | unrecognized
end

def RouteNode.path : RouteNode → String
  | .mk p _ _ _ => p

def RouteNode.name : RouteNode → String
  | .mk _ n _ _ => n

def RouteNode.children : RouteNode → List RouteNode
  | .mk _ _ c _ => c

def RouteNode.lazyLoader : RouteNode → Option LazyLoader
  | .mk _ _ _ l => l

/-- The regex replacement `replace(/\/+/g, '/')` used by `joinPaths`:
collapse every run of slashes to a single slash. -/
def collapseSlashesAux : Bool → List Char → List Char
  | _, [] => []
  | prevSlash, c :: rest =>
    if c == '/' then
      if prevSlash then collapseSlashesAux true rest
      else '/' :: collapseSlashesAux true rest
    else c :: collapseSlashesAux false rest

def collapseSlashes (s : String) : String :=
  String.mk (collapseSlashesAux false s.data)

/-- `NamedRouteService.joinPaths` (lines 492-496). -/
def joinPaths (parent child : String) : String :=
  if child = "" then parent
  else if parent = "" then child
  else collapseSlashes (parent ++ "/" ++ child)

/-- The registry mapping, in insertion order (`Map<string, string>`). -/
abbrev RouteMap := List (String × String)

/-- Modelled from the spec: the JS builtin `String.prototype.trim`
(strip leading and trailing whitespace). -/
def jsTrim (s : String) : String :=
  String.mk (((s.data.dropWhile Char.isWhitespace).reverse.dropWhile
    Char.isWhitespace).reverse)

/-- `NamedRouteService.registerRoute` (lines 403-415): skip (with a
warning) when the trimmed name is blank; fail with
`DuplicateRouteNameError` when the name already has a stored path;
otherwise insert. -/
def registerRoute (m : RouteMap) (name path : String) :
    Except NamedError RouteMap :=
  if jsTrim name = "" then .ok m
  else
    match m.lookup name with
    | some existingPath => .error (.duplicate name existingPath path)
    | none => .ok (m ++ [(name, path)])

/-- `NamedError` produced by the catch block of `processLazyRoute`
(lines 425-429), which wraps any error raised while loading or
processing a lazy subtree. -/
def NamedError.wrapLazy (e : NamedError) (fullPath : String) : NamedError :=
  .named ("Failed to load lazy module at path " ++ sq ++ fullPath ++ sq ++ ": " ++ e.message)

/-- Step 2 of `processRoute` (lines 387-390): register only when
`namedRoute.name` is truthy. -/
def registerStep (m : RouteMap) (name fullPath : String) :
    Except NamedError RouteMap :=
  if name = "" then .ok m else registerRoute m name fullPath

mutual
/-- `NamedRouteService.buildRouteMap` (lines 359-380) restricted to an
actual array argument: process the routes in order, stopping at the
first error.  The returned map is the registry content after the calls
the source performed (the source mutates `this.routeMap` in place, so
the map accumulated before a failure is kept alongside the error). -/
def buildRouteMap (m : RouteMap) (routes : List RouteNode) (parentPath : String) :
    Except NamedError Unit × RouteMap :=
  match routes with
  | [] => (.ok (), m)
  | r :: rest =>
    match processRoute m r parentPath with
    | (.error e, m1) => (.error e, m1)
    | (.ok (), m1) => buildRouteMap m1 rest parentPath
termination_by structural routes

/-- `NamedRouteService.processRoute` (lines 382-401): join the path,
register the name when truthy, recurse into children, then handle lazy
loading. -/
def processRoute (m : RouteMap) (route : RouteNode) (parentPath : String) :
    Except NamedError Unit × RouteMap :=
  match route with
  | .mk path name children lazyLoader =>
    let fullPath := joinPaths parentPath path
    match registerStep m name fullPath with
    | .error e => (.error e, m)
    | .ok m1 =>
      match buildRouteMap m1 children fullPath with
      | (.error e, m2) => (.error e, m2)
      | (.ok (), m2) =>
        match lazyLoader with
        | none => (.ok (), m2)
        | some l => processLazyRoute m2 l fullPath
termination_by structural route

/-- `NamedRouteService.processLazyRoute` (lines 417-430): await the
loader, extract the child routes according to the resolved shape
(`extractRoutesFromLazyModule`, lines 432-464, inlined per shape), build
the subtree, and wrap any failure — rejection or error raised during the
subtree build — in a `Failed to load lazy module` error. -/
def processLazyRoute (m : RouteMap) (l : LazyLoader) (fullPath : String) :
    Except NamedError Unit × RouteMap :=
  match l with
  | .rejects msg => ((NamedError.named msg).wrapLazy fullPath |> .error, m)
  | .resolves .unrecognized => (.ok (), m)
  | .resolves (.directArray rs) =>
    match buildRouteMap m rs fullPath with
    | (.ok (), m1) => (.ok (), m1)
    | (.error e, m1) => (.error (e.wrapLazy fullPath), m1)
  | .resolves (.defaultExport rs) =>
    match buildRouteMap m rs fullPath with
    | (.ok (), m1) => (.ok (), m1)
    | (.error e, m1) => (.error (e.wrapLazy fullPath), m1)
  | .resolves (.routesExport rs) =>
    match buildRouteMap m rs fullPath with
    | (.ok (), m1) => (.ok (), m1)
    | (.error e, m1) => (.error (e.wrapLazy fullPath), m1)
  | .resolves (.moduleLike rs) =>
    match buildRouteMap m rs fullPath with
    | (.ok (), m1) => (.ok (), m1)
    | (.error e, m1) => (.error (e.wrapLazy fullPath), m1)
termination_by structural l
end

/-! ## Service lifecycle state machine -/

/-- The mutable fields of `NamedRouteService`: `routeMap`,
`isInitialized`, and `initializationPromise` (modelled by the identifier
of the in-flight build, if any). -/
structure ServiceState where
  routeMap : RouteMap
  isInitialized : Bool
  pendingId : Option Nat

/-- The state at construction: empty map, not initialized, no in-flight
build. -/
def initialState : ServiceState := ⟨[], false, none⟩

/-- What a call to `initialize()` (lines 260-272) does before any
asynchronous work: return immediately when already initialized, return
the stored in-flight promise when one exists, or store and start a new
one. -/
inductive InitAction where
  | alreadyInitialized
  | joinedPending (id : Nat)
  | started (id : Nat)

/-- The synchronous prefix of `initialize()`: the coalescing logic.
`freshId` identifies the promise a new call would create. -/
def initializeCall (s : ServiceState) (freshId : Nat) : InitAction × ServiceState :=
  if s.isInitialized then (.alreadyInitialized, s)
  else
    match s.pendingId with
    | some p => (.joinedPending p, s)
    | none => (.started freshId, { s with pendingId := some freshId })

/-- `NamedRouteService.performInitialization` (lines 274-295): read the
root configuration (`none` models an unavailable `router.config`), run
`buildRouteMap` from the current registry, set `isInitialized` on
success; on failure the catch clears `initializationPromise` and
rethrows.  The source never clears `routeMap` here, so the map produced
by the failed traversal is kept.

The returned state is the net state once the promise stored at line 270
has settled, which depends on when the failure is raised relative to
the first `await`.  The missing-configuration throw is synchronous: it
runs the catch (clearing the reference) while the right-hand side of
`this.initializationPromise = this.performInitialization()` is still
being evaluated, and the assignment then stores the already-rejected
promise — net effect: the rejected promise remains stored (`pendingId`
unchanged).  A traversal failure happens after the first `await`, in a
microtask that runs after the assignment, so there the catch's clearing
is the last write (`pendingId := none`). -/
def performInitialization (s : ServiceState) (config : Option (List RouteNode)) :
    Except NamedError Unit × ServiceState :=
  match config with
  | none =>
    (.error (.named ("Router configuration is not available. " ++
        "Ensure the router is properly configured.")), s)
  | some rootRoutes =>
    match buildRouteMap s.routeMap rootRoutes "" with
    | (.ok (), m1) => (.ok (), { s with routeMap := m1, isInitialized := true })
    | (.error e, m1) => (.error e, { s with routeMap := m1, pendingId := none })

/-- `NamedRouteService.reset` (lines 342-346). -/
def resetState (_ : ServiceState) : ServiceState := initialState

/-- `NamedRouteService.refresh` (lines 354-357): `reset()` then
`initialize()`; after a reset the initialize call always starts a fresh
build, whose body is `performInitialization`. -/
def refreshState (s : ServiceState) (config : Option (List RouteNode)) (freshId : Nat) :
    Except NamedError Unit × ServiceState :=
  performInitialization (initializeCall (resetState s) freshId).2 config

/-- `NamedRouteService.getRoutePath` (lines 303-317): a falsy name warns
and returns `undefined`; otherwise the map entry (with a diagnostic
warning, not affecting the result, when absent after initialization). -/
def getRoutePath (s : ServiceState) (name : String) : Option String :=
  if name = "" then none
  else s.routeMap.lookup name

/-- `NamedRouteService.hasRoute` (lines 334-336): `routeMap.has(name)`. -/
def hasRoute (s : ServiceState) (name : String) : Bool :=
  (s.routeMap.lookup name).isSome

/-- `NamedRouteService.getAllRouteNames` (lines 324-326): the keys in
insertion order. -/
def getAllRouteNames (s : ServiceState) : List String :=
  s.routeMap.map Prod.fst

/-- Projection of `processSegment` onto its `missingParams` contribution:
the parameter name a single segment records as missing, if any.  Used to
state which names `interpolatePathParams` reports. -/
def segmentMissing (routeParams : List (String × ParamValue))
    (segment : List Char) : List String :=
  if segment.head? = some ':' then
    let isOptional := segment.getLast? = some '?'
    let paramName0 := segment.drop 1
    let paramName1 := if isOptional then paramName0.dropLast else paramName0
    let paramName := String.mk (paramName1.takeWhile (fun c => c != '('))
    match routeParams.lookup paramName with
    | some _ => []
    | none => if isOptional then [] else [paramName]
  else []

/-- Substring test (used to state what an error message does not
contain). -/
def containsSubstring (hay needle : String) : Bool :=
  (List.range (hay.data.length + 1)).any
    (fun i => needle.data.isPrefixOf (hay.data.drop i))

/-- The service states reachable through the public lifecycle:
construction, the synchronous prefix of `initialize` / the body of an
in-flight build (any interleaving), and `reset`; `refresh` is the
composition of `reset` with the two `initialize` phases. -/
inductive Reachable : ServiceState → Prop where
  | fresh : Reachable initialState
  | start (s : ServiceState) (f : Nat) :
      Reachable s → Reachable (initializeCall s f).2
  | complete (s : ServiceState) (cfg : Option (List RouteNode)) :
      Reachable s → Reachable (performInitialization s cfg).2
  | reset (s : ServiceState) : Reachable s → Reachable (resetState s)

/-- A route configuration with two nodes claiming the same name
(`{ path: 'first', name: 'dup' }`, `{ path: 'second', name: 'dup' }`),
used as a concrete failing build input. -/
def dupConfig : List RouteNode :=
  [.mk "first" "dup" [] none, .mk "second" "dup" [] none]

/-! ## Unfolding equations for the traversal (proved by `rfl`; the
automatic equation generator does not handle this mutual recursion) -/

lemma buildRouteMap_nil (m : RouteMap) (parent : String) :
    buildRouteMap m [] parent = (.ok (), m) := rfl

lemma buildRouteMap_cons (m : RouteMap) (r : RouteNode) (rest : List RouteNode)
    (parent : String) :
    buildRouteMap m (r :: rest) parent =
      match processRoute m r parent with
      | (.error e, m1) => (.error e, m1)
      | (.ok (), m1) => buildRouteMap m1 rest parent := rfl

lemma processRoute_mk_none (m : RouteMap) (p n : String) (cs : List RouteNode)
    (parent : String) :
    processRoute m (.mk p n cs none) parent =
      match registerStep m n (joinPaths parent p) with
      | .error e => (.error e, m)
      | .ok m1 =>
        match buildRouteMap m1 cs (joinPaths parent p) with
        | (.error e, m2) => (.error e, m2)
        | (.ok (), m2) => (.ok (), m2) := rfl

lemma processRoute_mk_some (m : RouteMap) (p n : String) (cs : List RouteNode)
    (l : LazyLoader) (parent : String) :
    processRoute m (.mk p n cs (some l)) parent =
      match registerStep m n (joinPaths parent p) with
      | .error e => (.error e, m)
      | .ok m1 =>
        match buildRouteMap m1 cs (joinPaths parent p) with
        | (.error e, m2) => (.error e, m2)
        | (.ok (), m2) => processLazyRoute m2 l (joinPaths parent p) := rfl

lemma processLazyRoute_rejects (m : RouteMap) (msg fullPath : String) :
    processLazyRoute m (.rejects msg) fullPath =
      ((NamedError.named msg).wrapLazy fullPath |> .error, m) := rfl

lemma processLazyRoute_unrecognized (m : RouteMap) (fullPath : String) :
    processLazyRoute m (.resolves .unrecognized) fullPath = (.ok (), m) := rfl

lemma processLazyRoute_direct (m : RouteMap) (rs : List RouteNode) (fullPath : String) :
    processLazyRoute m (.resolves (.directArray rs)) fullPath =
      match buildRouteMap m rs fullPath with
      | (.ok (), m1) => (.ok (), m1)
      | (.error e, m1) => (.error (e.wrapLazy fullPath), m1) := rfl

lemma processLazyRoute_default (m : RouteMap) (rs : List RouteNode) (fullPath : String) :
    processLazyRoute m (.resolves (.defaultExport rs)) fullPath =
      match buildRouteMap m rs fullPath with
      | (.ok (), m1) => (.ok (), m1)
      | (.error e, m1) => (.error (e.wrapLazy fullPath), m1) := rfl

lemma processLazyRoute_routes (m : RouteMap) (rs : List RouteNode) (fullPath : String) :
    processLazyRoute m (.resolves (.routesExport rs)) fullPath =
      match buildRouteMap m rs fullPath with
      | (.ok (), m1) => (.ok (), m1)
      | (.error e, m1) => (.error (e.wrapLazy fullPath), m1) := rfl

lemma processLazyRoute_module (m : RouteMap) (rs : List RouteNode) (fullPath : String) :
    processLazyRoute m (.resolves (.moduleLike rs)) fullPath =
      match buildRouteMap m rs fullPath with
      | (.ok (), m1) => (.ok (), m1)
      | (.error e, m1) => (.error (e.wrapLazy fullPath), m1) := rfl

/-! ## Key invariant: no blank key is ever stored -/

lemma initializeCall_routeMap (s : ServiceState) (f : Nat) :
    (initializeCall s f).2.routeMap = s.routeMap := by
  unfold initializeCall
  split
  · rfl
  · split <;> rfl

lemma initializeCall_isInitialized (s : ServiceState) (f : Nat) :
    (initializeCall s f).2.isInitialized = s.isInitialized := by
  unfold initializeCall
  split
  · rfl
  · split <;> rfl


lemma lookup_mem : ∀ (l : RouteMap) (k p : String), l.lookup k = some p → (k, p) ∈ l := by
  intro l k p h
  induction l with
  | nil => simp [List.lookup] at h
  | cons a t ih =>
    rw [List.lookup] at h
    by_cases he : k = a.1
    · rw [show (k == a.1) = true from beq_iff_eq.mpr he] at h
      simp only [Option.some.injEq] at h
      have hpa : (k, p) = a := by rw [he, ← h]
      rw [hpa]
      exact List.mem_cons_self a t
    · rw [show (k == a.1) = false from beq_eq_false_iff_ne.mpr he] at h
      right
      exact ih h

lemma registerStep_keys (m m1 : RouteMap) (name fullPath : String)
    (h : registerStep m name fullPath = .ok m1)
    (hm : ∀ kv ∈ m, kv.1 ≠ "") : ∀ kv ∈ m1, kv.1 ≠ "" := by
  unfold registerStep registerRoute at h
  by_cases h0 : name = ""
  · rw [if_pos h0] at h
    simp at h
    subst h
    exact hm
  · rw [if_neg h0] at h
    by_cases h1 : jsTrim name = ""
    · rw [if_pos h1] at h
      simp at h
      subst h
      exact hm
    · rw [if_neg h1] at h
      cases hl : m.lookup name with
      | some p => rw [hl] at h; simp at h
      | none =>
        rw [hl] at h
        simp at h
        subst h
        intro kv hkv
        rcases List.mem_append.mp hkv with hk | hk
        · exact hm kv hk
        · simp only [List.mem_singleton] at hk
          subst hk
          exact h0

lemma build_preserves_keys :
    ∀ (m : RouteMap) (routes : List RouteNode) (parent : String),
      (∀ kv ∈ m, kv.1 ≠ "") → ∀ kv ∈ (buildRouteMap m routes parent).2, kv.1 ≠ "" := by
  apply buildRouteMap.induct
    (fun m routes parent => (∀ kv ∈ m, kv.1 ≠ "") →
      ∀ kv ∈ (buildRouteMap m routes parent).2, kv.1 ≠ "")
    (fun m route parent => (∀ kv ∈ m, kv.1 ≠ "") →
      ∀ kv ∈ (processRoute m route parent).2, kv.1 ≠ "")
    (fun m l p => (∀ kv ∈ m, kv.1 ≠ "") →
      ∀ kv ∈ (processLazyRoute m l p).2, kv.1 ≠ "")
  · intro m parentPath p name children lazyLoader fullPath e heq hm
    rw [show fullPath = joinPaths parentPath p from rfl] at heq
    cases lazyLoader with
    | none => rw [processRoute_mk_none, heq]; exact hm
    | some l => rw [processRoute_mk_some, heq]; exact hm
  · intro m parentPath p name children lazyLoader fullPath m1 hreg e m2 hbuild ih hm
    rw [show fullPath = joinPaths parentPath p from rfl] at hreg hbuild ih
    have h2 := ih (registerStep_keys m m1 name (joinPaths parentPath p) hreg hm)
    rw [hbuild] at h2
    cases lazyLoader with
    | none =>
      rw [processRoute_mk_none]
      simpa [hreg, hbuild] using h2
    | some l =>
      rw [processRoute_mk_some]
      simpa [hreg, hbuild] using h2
  · intro m parentPath p name children fullPath m1 hreg m2 hbuild ih hm
    rw [show fullPath = joinPaths parentPath p from rfl] at hreg hbuild ih
    have h2 := ih (registerStep_keys m m1 name (joinPaths parentPath p) hreg hm)
    rw [hbuild] at h2
    rw [processRoute_mk_none]
    simpa [hreg, hbuild] using h2
  · intro m parentPath p name children fullPath m1 hreg m2 hbuild l ih ihl hm
    rw [show fullPath = joinPaths parentPath p from rfl] at hreg hbuild ih ihl
    have h2 := ih (registerStep_keys m m1 name (joinPaths parentPath p) hreg hm)
    rw [hbuild] at h2
    simp only [] at h2
    have h3 := ihl h2
    rw [processRoute_mk_some]
    simpa [hreg, hbuild] using h3
  · intro m fullPath msg hm
    rw [processLazyRoute_rejects]
    exact hm
  · intro m fullPath hm
    rw [processLazyRoute_unrecognized]
    exact hm
  · intro m fullPath rs m1 hbuild ih hm
    rw [processLazyRoute_direct, hbuild]
    have := ih hm
    rw [hbuild] at this
    exact this
  · intro m fullPath rs e m1 hbuild ih hm
    rw [processLazyRoute_direct, hbuild]
    have := ih hm
    rw [hbuild] at this
    exact this
  · intro m fullPath rs m1 hbuild ih hm
    rw [processLazyRoute_default, hbuild]
    have := ih hm
    rw [hbuild] at this
    exact this
  · intro m fullPath rs e m1 hbuild ih hm
    rw [processLazyRoute_default, hbuild]
    have := ih hm
    rw [hbuild] at this
    exact this
  · intro m fullPath rs m1 hbuild ih hm
    rw [processLazyRoute_routes, hbuild]
    have := ih hm
    rw [hbuild] at this
    exact this
  · intro m fullPath rs e m1 hbuild ih hm
    rw [processLazyRoute_routes, hbuild]
    have := ih hm
    rw [hbuild] at this
    exact this
  · intro m fullPath rs m1 hbuild ih hm
    rw [processLazyRoute_module, hbuild]
    have := ih hm
    rw [hbuild] at this
    exact this
  · intro m fullPath rs e m1 hbuild ih hm
    rw [processLazyRoute_module, hbuild]
    have := ih hm
    rw [hbuild] at this
    exact this
  · intro m parentPath hm
    rw [buildRouteMap_nil]
    exact hm
  · intro m parentPath r rest e m1 hproc ih hm
    rw [buildRouteMap_cons, hproc]
    have := ih hm
    rw [hproc] at this
    exact this
  · intro m parentPath r rest m1 hproc ih ihrest hm
    rw [buildRouteMap_cons, hproc]
    have h2 := ih hm
    rw [hproc] at h2
    exact ihrest h2

lemma reachable_goodKeys (s : ServiceState) (h : Reachable s) :
    ∀ kv ∈ s.routeMap, kv.1 ≠ "" := by
  induction h with
  | fresh => intro kv hkv; simp [initialState] at hkv
  | start s f _ ih =>
    rw [initializeCall_routeMap]
    exact ih
  | complete s cfg _ ih =>
    cases cfg with
    | none => exact ih
    | some rs =>
      rcases hb : buildRouteMap s.routeMap rs "" with ⟨res, m1⟩
      have hkeys := build_preserves_keys s.routeMap rs "" ih
      rw [hb] at hkeys
      cases res with
      | error e =>
        simp [performInitialization, hb]
        exact fun a b hab => hkeys (a, b) hab
      | ok u =>
        cases u
        simp [performInitialization, hb]
        exact fun a b hab => hkeys (a, b) hab
  | reset s _ _ => intro kv hkv; simp [resetState, initialState] at hkv

/-! ## C9: hasRoute and lookup are always mutually consistent -/

/-- C9: in every service state reachable through the lifecycle
operations, `hasRoute name` is true exactly when `getRoutePath name`
returns a path, including for the blank name (blank names are never
stored, so both report absence). -/
theorem claim_C9 (s : ServiceState) (name : String) (h : Reachable s) :
    hasRoute s name = true ↔ (getRoutePath s name).isSome = true := by
  unfold hasRoute getRoutePath
  by_cases hn : name = ""
  · rw [if_pos hn]
    subst hn
    constructor
    · intro hmem
      exfalso
      rcases Option.isSome_iff_exists.mp hmem with ⟨p, hp⟩
      exact reachable_goodKeys s h ("", p) (lookup_mem s.routeMap "" p hp) rfl
    · intro hp
      simp at hp
  · rw [if_neg hn]

/-- Witness for C9 at the freshly constructed service. -/
theorem claim_C9_witness :
    hasRoute initialState "home" = true ↔
      (getRoutePath initialState "home").isSome = true :=
  claim_C9 initialState "home" Reachable.fresh

/-! ## Sanity checks: concrete evaluations from the spec's testable properties -/

example : interpolatePathParams "" [] = .ok ["/"] := by rfl
example : interpolatePathParams "users/:id?" [] = .ok ["users"] := by rfl
example : interpolatePathParams "users/:id?" [("id", .num 5)] = .ok ["users", "5"] := by rfl
example : interpolatePathParams "users/:id(\\d+)" [("id", .num 42)] = .ok ["users", "42"] := by rfl
example : interpolatePathParams "users/:id" [] =
    .error "Missing required route parameters: id" := by rfl
example : interpolatePathParams "search/:query" [("query", .str "hello world & stuff")] =
    .ok ["search", "hello%20world%20%26%20stuff"] := by rfl


example :
    buildRouteMap [] [.mk "home" "home" [] none, .mk "about" "about" [] none] "" =
      (.ok (), [("home", "home"), ("about", "about")]) := by rfl

example :
    buildRouteMap []
      [.mk "users" "users" [.mk ":id" "user-detail" [] none, .mk ":id/edit" "user-edit" [] none]
        none] "" =
      (.ok (), [("users", "users"), ("user-detail", "users/:id"),
        ("user-edit", "users/:id/edit")]) := by rfl

example :
    buildRouteMap [] [.mk "first" "duplicate" [] none, .mk "second" "duplicate" [] none] "" =
      (.error (.duplicate "duplicate" "first" "second"), [("duplicate", "first")]) := by rfl

example :
    buildRouteMap [] [.mk "lazy" "" [] (some (.resolves (.directArray
      [.mk "lazy-detail" "lazy-detail" [] none])))] "" =
      (.ok (), [("lazy-detail", "lazy/lazy-detail")]) := by rfl

example :
    buildRouteMap [] [.mk "test" "   " [] none] "" = (.ok (), []) := by rfl

/-! ## C1: duplicate names are always fatal, never overwritten -/

/-- C1: whenever the traversal reaches a node whose non-blank name is
already present in the registry, the build fails at once with
`DuplicateRouteNameError` carrying the route name, the previously stored
path and the newly computed path — for any newly computed path,
including one equal to the stored path — and returns the registry map
unchanged (the entry is never overwritten). -/
theorem claim_C1 (m : RouteMap) (nm p0 path parent : String)
    (children : List RouteNode) (lz : Option LazyLoader) (rest : List RouteNode)
    (hdup : m.lookup nm = some p0) (hnb : jsTrim nm ≠ "") :
    buildRouteMap m (RouteNode.mk path nm children lz :: rest) parent =
      (.error (.duplicate nm p0 (joinPaths parent path)), m) := by
  have hne : nm ≠ "" := fun h => hnb (by rw [h]; rfl)
  have hreg : registerStep m nm (joinPaths parent path) =
      .error (.duplicate nm p0 (joinPaths parent path)) := by
    simp [registerStep, registerRoute, hne, hnb, hdup]
  cases lz with
  | none => rw [buildRouteMap_cons, processRoute_mk_none, hreg]
  | some l => rw [buildRouteMap_cons, processRoute_mk_some, hreg]

/-- Witness for C1, with the newly computed path equal to the stored
one: the equal-path duplicate still fails and the map is unchanged. -/
theorem claim_C1_witness :
    ([("dup", "p")] : RouteMap).lookup "dup" = some "p" ∧
    buildRouteMap [("dup", "p")] [RouteNode.mk "p" "dup" [] none] "" =
      (.error (.duplicate "dup" "p" "p"), [("dup", "p")]) :=
  ⟨rfl, claim_C1 [("dup", "p")] "dup" "p" "p" "" [] none [] rfl (by decide)⟩

/-! ## C2: what a failed build leaves behind -/

/-- Counterexample to C2: a build that fails on a duplicate name leaves
the entry registered before the failure point fully observable
(`hasRoute` is true, lookup returns the stored path, `getAllRouteNames`
lists the name), and a failed `refresh` from a previously successful
state ends half-mutated: the old entries are gone and the partial new
mapping remains. -/
theorem claim_C2_counterexample :
    (performInitialization (initializeCall initialState 0).2 (some dupConfig)).1 =
      .error (.duplicate "dup" "first" "second") ∧
    hasRoute (performInitialization (initializeCall initialState 0).2
      (some dupConfig)).2 "dup" = true ∧
    getRoutePath (performInitialization (initializeCall initialState 0).2
      (some dupConfig)).2 "dup" = some "first" ∧
    getAllRouteNames (performInitialization (initializeCall initialState 0).2
      (some dupConfig)).2 = ["dup"] ∧
    (refreshState ⟨[("home", "home")], true, none⟩ (some dupConfig) 1).1 =
      .error (.duplicate "dup" "first" "second") ∧
    (refreshState ⟨[("home", "home")], true, none⟩ (some dupConfig) 1).2.routeMap =
      [("dup", "first")] :=
  ⟨rfl, rfl, rfl, rfl, rfl, rfl⟩

/-- C2 as amended: build failure never discards the partial mapping —
the registry keeps exactly the map the failed traversal accumulated,
and a failed `refresh` keeps the partial map built on top of the empty
registry left by `reset`.  For a failure of the traversal itself (root
configuration present, as in both clauses below) the pending-build
reference is cleared and the initialized flag stays false. -/
theorem claim_C2_amended :
    (∀ (s : ServiceState) (rs : List RouteNode) (f : Nat) (e : NamedError),
      s.isInitialized = false →
      (buildRouteMap s.routeMap rs "").1 = .error e →
      (performInitialization (initializeCall s f).2 (some rs)).1 = .error e ∧
      (performInitialization (initializeCall s f).2 (some rs)).2.routeMap =
        (buildRouteMap s.routeMap rs "").2 ∧
      (performInitialization (initializeCall s f).2 (some rs)).2.isInitialized = false ∧
      (performInitialization (initializeCall s f).2 (some rs)).2.pendingId = none) ∧
    (∀ (s : ServiceState) (rs : List RouteNode) (f : Nat) (e : NamedError),
      (buildRouteMap [] rs "").1 = .error e →
      (refreshState s (some rs) f).1 = .error e ∧
      (refreshState s (some rs) f).2.routeMap = (buildRouteMap [] rs "").2 ∧
      (refreshState s (some rs) f).2.isInitialized = false ∧
      (refreshState s (some rs) f).2.pendingId = none) := by
  have main : ∀ (s : ServiceState) (rs : List RouteNode) (f : Nat) (e : NamedError),
      s.isInitialized = false →
      (buildRouteMap s.routeMap rs "").1 = .error e →
      (performInitialization (initializeCall s f).2 (some rs)).1 = .error e ∧
      (performInitialization (initializeCall s f).2 (some rs)).2.routeMap =
        (buildRouteMap s.routeMap rs "").2 ∧
      (performInitialization (initializeCall s f).2 (some rs)).2.isInitialized = false ∧
      (performInitialization (initializeCall s f).2 (some rs)).2.pendingId = none := by
    intro s rs f e hinit hfail
    rcases hb : buildRouteMap s.routeMap rs "" with ⟨res, m2⟩
    rw [hb] at hfail
    simp only at hfail
    subst hfail
    have hmap := initializeCall_routeMap s f
    have hini := initializeCall_isInitialized s f
    simp [performInitialization, hmap, hb, hini, hinit]
  refine ⟨main, fun s rs f e hfail => ?_⟩
  have h := main initialState rs f e rfl hfail
  exact h

/-- Witness for C2 as amended: a duplicate-name failure on a registry
that already held an entry keeps both the pre-existing entry and the
partially registered one, with the pending reference cleared. -/
theorem claim_C2_witness :
    (performInitialization
      (initializeCall (⟨[("home", "home")], false, none⟩ : ServiceState) 3).2
      (some dupConfig)).1 = .error (.duplicate "dup" "first" "second") ∧
    (performInitialization
      (initializeCall (⟨[("home", "home")], false, none⟩ : ServiceState) 3).2
      (some dupConfig)).2.routeMap = [("home", "home"), ("dup", "first")] ∧
    (performInitialization
      (initializeCall (⟨[("home", "home")], false, none⟩ : ServiceState) 3).2
      (some dupConfig)).2.isInitialized = false ∧
    (performInitialization
      (initializeCall (⟨[("home", "home")], false, none⟩ : ServiceState) 3).2
      (some dupConfig)).2.pendingId = none :=
  claim_C2_amended.1 ⟨[("home", "home")], false, none⟩ dupConfig 3
    (.duplicate "dup" "first" "second") rfl rfl

/-! ## C8: build coalescing and idempotence -/

/-- C8: from an idle uninitialized state, a `build` call starts exactly
one traversal; a second call issued while that one is in flight returns
the same pending result (the stored promise, unchanged state) instead of
starting a second traversal; and once the build completes successfully,
a further `build` call is an immediate no-op. -/
theorem claim_C8 (s : ServiceState) (cfg : Option (List RouteNode)) (f g h : Nat)
    (hinit : s.isInitialized = false) (hpend : s.pendingId = none) :
    (initializeCall s f).1 = .started f ∧
    initializeCall (initializeCall s f).2 g =
      (.joinedPending f, (initializeCall s f).2) ∧
    ((performInitialization (initializeCall s f).2 cfg).1 = .ok () →
      initializeCall (performInitialization (initializeCall s f).2 cfg).2 h =
        (.alreadyInitialized, (performInitialization (initializeCall s f).2 cfg).2)) := by
  have h1 : initializeCall s f = (.started f, { s with pendingId := some f }) := by
    simp [initializeCall, hinit, hpend]
  refine ⟨by rw [h1], by rw [h1]; simp [initializeCall, hinit], ?_⟩
  intro hok
  rw [h1] at hok ⊢
  cases cfg with
  | none => simp [performInitialization] at hok
  | some rs =>
    rcases hb : buildRouteMap ({ s with pendingId := some f } : ServiceState).routeMap rs ""
      with ⟨res, m1⟩
    cases res with
    | error e => simp [performInitialization, hb] at hok
    | ok u =>
      cases u
      simp [performInitialization, hb, initializeCall]

/-- Witness for C8 at a concrete configuration that builds
successfully. -/
theorem claim_C8_witness :
    (initializeCall initialState 1).1 = .started 1 ∧
    initializeCall (initializeCall initialState 1).2 2 =
      (.joinedPending 1, (initializeCall initialState 1).2) ∧
    ((performInitialization (initializeCall initialState 1).2
        (some [RouteNode.mk "home" "home" [] none])).1 = .ok () →
      initializeCall (performInitialization (initializeCall initialState 1).2
          (some [RouteNode.mk "home" "home" [] none])).2 3 =
        (.alreadyInitialized, (performInitialization (initializeCall initialState 1).2
          (some [RouteNode.mk "home" "home" [] none])).2)) :=
  claim_C8 initialState (some [RouteNode.mk "home" "home" [] none]) 1 2 3 rfl rfl

/-! ## C10: which failed builds are retryable -/

/-- Counterexample to C10: on the missing-root-configuration failure
the synchronous throw runs the catch before `initialize()` stores the
promise, so the rejected promise remains stored — the subsequent build
call joins the stale pending result instead of starting a fresh
traversal. -/
theorem claim_C10_counterexample :
    (initializeCall initialState 0).1 = .started 0 ∧
    (performInitialization (initializeCall initialState 0).2 none).1 =
      .error (.named ("Router configuration is not available. " ++
        "Ensure the router is properly configured.")) ∧
    (performInitialization (initializeCall initialState 0).2 none).2.pendingId = some 0 ∧
    (initializeCall (performInitialization (initializeCall initialState 0).2 none).2 1).1 =
      .joinedPending 0 :=
  ⟨rfl, rfl, rfl, rfl⟩

/-- C10 as amended: a failed build is retryable only when the failure
arises from the traversal itself (root configuration present): then the
pending-build reference is cleared and the initialized flag stays
false, so a subsequent build call starts a fresh traversal.  When the
root configuration is missing, the rejected promise remains stored and
a subsequent build call returns that cached rejection instead of
starting a fresh traversal. -/
theorem claim_C10_amended :
    (∀ (s : ServiceState) (rs : List RouteNode) (f g : Nat) (e : NamedError)
      (s2 : ServiceState),
      s.isInitialized = false → s.pendingId = none →
      performInitialization (initializeCall s f).2 (some rs) = (.error e, s2) →
      s2.pendingId = none ∧ s2.isInitialized = false ∧
      initializeCall s2 g = (.started g, { s2 with pendingId := some g })) ∧
    (∀ (s : ServiceState) (f g : Nat) (e : NamedError) (s2 : ServiceState),
      s.isInitialized = false → s.pendingId = none →
      performInitialization (initializeCall s f).2 none = (.error e, s2) →
      s2.pendingId = some f ∧ s2.isInitialized = false ∧
      initializeCall s2 g = (.joinedPending f, s2)) := by
  constructor
  · intro s rs f g e s2 hinit hpend hfail
    have h1 : initializeCall s f = (.started f, { s with pendingId := some f }) := by
      simp [initializeCall, hinit, hpend]
    rw [h1] at hfail
    have hstate : s2.pendingId = none ∧ s2.isInitialized = false := by
      rcases hb : buildRouteMap ({ s with pendingId := some f } : ServiceState).routeMap rs ""
        with ⟨res, m1⟩
      cases res with
      | error e2 =>
        simp [performInitialization, hb] at hfail
        rw [← hfail.2]
        exact ⟨rfl, hinit⟩
      | ok u =>
        cases u
        simp [performInitialization, hb] at hfail
    refine ⟨hstate.1, hstate.2, ?_⟩
    simp [initializeCall, hstate.1, hstate.2]
  · intro s f g e s2 hinit hpend hfail
    have h1 : initializeCall s f = (.started f, { s with pendingId := some f }) := by
      simp [initializeCall, hinit, hpend]
    rw [h1] at hfail
    simp [performInitialization] at hfail
    rw [← hfail.2]
    refine ⟨rfl, hinit, ?_⟩
    simp [initializeCall, hinit]

/-! ## Helper lemmas for segment-level reasoning -/

lemma takeWhile_ne_all (pn : List Char) (h : '(' ∉ pn) :
    pn.takeWhile (fun c => c != '(') = pn := by
  induction pn with
  | nil => rfl
  | cons c t ih =>
    simp only [List.mem_cons, not_or] at h
    have hc : ¬c = '(' := fun hh => h.1 hh.symm
    simp [List.takeWhile_cons, hc, ih h.2]

lemma takeWhile_append_paren (pn tail : List Char) (h : '(' ∉ pn) :
    (pn ++ '(' :: tail).takeWhile (fun c => c != '(') = pn := by
  induction pn with
  | nil => simp [List.takeWhile_cons]
  | cons c t ih =>
    simp only [List.mem_cons, not_or] at h
    have hc : ¬c = '(' := fun hh => h.1 hh.symm
    simp [List.takeWhile_cons, hc, ih h.2]

lemma processSegment_snd (params : List (String × ParamValue))
    (acc : List String × List String) (s : List Char) :
    (processSegment params acc s).2 = acc.2 ++ segmentMissing params s := by
  by_cases h : s.head? = some ':'
  · by_cases hopt : s.getLast? = some '?'
    · simp only [processSegment, segmentMissing, if_pos h, if_pos hopt]
      cases params.lookup (String.mk (((s.drop 1).dropLast).takeWhile
          (fun c => c != '('))) with
      | some v => simp
      | none => simp
    · simp only [processSegment, segmentMissing, if_pos h, if_neg hopt]
      cases params.lookup (String.mk ((s.drop 1).takeWhile (fun c => c != '('))) with
      | some v => simp
      | none => simp
  · simp [processSegment, segmentMissing, h]

lemma foldl_missing (params : List (String × ParamValue)) (segs : List (List Char))
    (acc : List String × List String) :
    (segs.foldl (processSegment params) acc).2 =
      acc.2 ++ segs.flatMap (segmentMissing params) := by
  induction segs generalizing acc with
  | nil => simp
  | cons s t ih =>
    rw [List.foldl_cons, ih, processSegment_snd]
    simp

lemma foldl_literal (params : List (String × ParamValue)) (segs : List (List Char))
    (acc : List String × List String)
    (h : ∀ s ∈ segs, s.head? ≠ some ':') :
    segs.foldl (processSegment params) acc = (acc.1 ++ segs.map String.mk, acc.2) := by
  induction segs generalizing acc with
  | nil => simp
  | cons s t ih =>
    simp only [List.mem_cons, forall_eq_or_imp] at h
    rw [List.foldl_cons]
    have hstep : processSegment params acc s = (acc.1 ++ [String.mk s], acc.2) := by
      simp [processSegment, h.1]
    rw [hstep, ih _ h.2]
    simp

/-! ## C3: all missing required parameters are collected and reported -/

/-- Counterexample to C3: the thrown message lists only the missing
parameter names; it does not identify the route name or pattern context
(neither the pattern nor any part of it beyond the parameter name occurs
in the message). -/
theorem claim_C3_counterexample :
    interpolatePathParams "users/:id" [] =
      .error "Missing required route parameters: id" ∧
    containsSubstring "Missing required route parameters: id" "users/:id" = false ∧
    containsSubstring "Missing required route parameters: id" "users" = false :=
  ⟨rfl, rfl, rfl⟩

/-- C3 as amended: when at least one required placeholder has no value,
every segment is still processed and the call fails with a message
listing every missing parameter name in pattern order, comma-joined —
but the message contains only the fixed prefix and the names, not the
route name or pattern. -/
theorem claim_C3 :
    (∀ (pattern : String) (params : List (String × ParamValue)),
      pattern ≠ "" →
      ((splitSlash pattern.data).filter (fun s => 0 < s.length)).flatMap
        (segmentMissing params) ≠ [] →
      interpolatePathParams pattern params =
        .error ("Missing required route parameters: " ++
          String.intercalate ", "
            (((splitSlash pattern.data).filter (fun s => 0 < s.length)).flatMap
              (segmentMissing params)))) ∧
    interpolatePathParams ":a/x/:b" [] =
      .error "Missing required route parameters: a, b" := by
  refine ⟨?_, rfl⟩
  intro pattern params hne hmiss
  unfold interpolatePathParams
  rw [if_neg hne]
  have h2 := foldl_missing params
    ((splitSlash pattern.data).filter (fun s => 0 < s.length)) ([], [])
  simp only [List.nil_append] at h2
  simp [h2, hmiss]

/-- Witness for C3 as amended: both `a` and `b` are reported, in
pattern order, despite the literal segment between them. -/
theorem claim_C3_witness :
    interpolatePathParams ":a/x/:b" [("c", ParamValue.num 1)] =
      .error "Missing required route parameters: a, b" :=
  claim_C3.1 ":a/x/:b" [("c", ParamValue.num 1)] (by decide) (by decide)

/-! ## C4: optional placeholders -/

/-- C4: an optional placeholder whose parameter is absent contributes
nothing to the result and nothing to the missing list (the accumulator
passes through unchanged, so later segments are unaffected); when the
parameter is present its encoded value is appended; and the concrete
examples from the spec hold, including one with a segment after the
omitted optional. -/
theorem claim_C4 :
    (∀ (params : List (String × ParamValue)) (pn : List Char)
      (acc : List String × List String),
      '(' ∉ pn → params.lookup (String.mk pn) = none →
      processSegment params acc (':' :: (pn ++ ['?'])) = acc) ∧
    (∀ (params : List (String × ParamValue)) (pn : List Char) (v : ParamValue)
      (acc : List String × List String),
      '(' ∉ pn → params.lookup (String.mk pn) = some v →
      processSegment params acc (':' :: (pn ++ ['?'])) =
        (acc.1 ++ [encodeURIComponent (valueToString v)], acc.2)) ∧
    interpolatePathParams "users/:id?" [] = .ok ["users"] ∧
    interpolatePathParams "users/:id?" [("id", .num 5)] = .ok ["users", "5"] ∧
    interpolatePathParams ":id?/tail" [] = .ok ["tail"] := by
  refine ⟨?_, ?_, rfl, rfl, rfl⟩
  · intro params pn acc hp hlk
    have h1 : (':' :: (pn ++ ['?'])).getLast? = some '?' := by
      rw [← List.cons_append, List.getLast?_concat]
    simp [processSegment, h1, List.dropLast_concat, takeWhile_ne_all pn hp, hlk]
  · intro params pn v acc hp hlk
    have h1 : (':' :: (pn ++ ['?'])).getLast? = some '?' := by
      rw [← List.cons_append, List.getLast?_concat]
    simp [processSegment, h1, List.dropLast_concat, takeWhile_ne_all pn hp, hlk]

/-- Witness for C4: the two general clauses at the parameter name `id`,
absent and present. -/
theorem claim_C4_witness :
    processSegment [] (["users"], []) (':' :: ("id".data ++ ['?'])) = (["users"], []) ∧
    processSegment [("id", ParamValue.num 5)] (["users"], [])
      (':' :: ("id".data ++ ['?'])) = (["users", "5"], []) :=
  ⟨claim_C4.1 [] "id".data (["users"], []) (by decide) rfl,
   claim_C4.2.1 [("id", ParamValue.num 5)] "id".data (ParamValue.num 5)
     (["users"], []) (by decide) rfl⟩

/-! ## C5: constraint suffixes are stripped, never validated -/

/-- C5: a placeholder is parsed by stripping the leading marker, then a
trailing optionality marker, then a parenthesized constraint suffix; the
constraint text is discarded before the parameter lookup (the lookup key
is the bare name, for any constraint text), is never validated against
the value, and never reaches the output — with the value present the
encoded value is appended, with it absent the bare name is recorded
missing, and with a trailing optionality marker after the constraint the
segment is omitted; the spec's concrete example holds. -/
theorem claim_C5 :
    (∀ (params : List (String × ParamValue)) (pn c : List Char) (v : ParamValue)
      (acc : List String × List String),
      '(' ∉ pn → params.lookup (String.mk pn) = some v →
      processSegment params acc (':' :: (pn ++ ('(' :: (c ++ [')'])))) =
        (acc.1 ++ [encodeURIComponent (valueToString v)], acc.2)) ∧
    (∀ (params : List (String × ParamValue)) (pn c : List Char)
      (acc : List String × List String),
      '(' ∉ pn → params.lookup (String.mk pn) = none →
      processSegment params acc (':' :: (pn ++ ('(' :: (c ++ [')'])))) =
        (acc.1, acc.2 ++ [String.mk pn])) ∧
    (∀ (params : List (String × ParamValue)) (pn c : List Char)
      (acc : List String × List String),
      '(' ∉ pn → params.lookup (String.mk pn) = none →
      processSegment params acc (':' :: (pn ++ ('(' :: (c ++ [')', '?'])))) = acc) ∧
    interpolatePathParams "users/:id(\\d+)" [("id", ParamValue.num 42)] =
      .ok ["users", "42"] := by
  have hno : ¬((some ')' : Option Char) = some '?') := by decide
  refine ⟨?_, ?_, ?_, rfl⟩
  · intro params pn c v acc hp hlk
    have h1 : (':' :: (pn ++ ('(' :: (c ++ [')'])))).getLast? = some ')' := by
      rw [show ':' :: (pn ++ ('(' :: (c ++ [')']))) =
        ((':' :: pn) ++ ('(' :: c)) ++ [')'] by simp, List.getLast?_concat]
    simp only [processSegment, List.head?_cons, List.drop_succ_cons, List.drop_zero,
      h1, if_neg hno]
    simp [takeWhile_append_paren pn _ hp, hlk]
  · intro params pn c acc hp hlk
    have h1 : (':' :: (pn ++ ('(' :: (c ++ [')'])))).getLast? = some ')' := by
      rw [show ':' :: (pn ++ ('(' :: (c ++ [')']))) =
        ((':' :: pn) ++ ('(' :: c)) ++ [')'] by simp, List.getLast?_concat]
    simp only [processSegment, List.head?_cons, List.drop_succ_cons, List.drop_zero,
      h1, if_neg hno]
    simp [takeWhile_append_paren pn _ hp, hlk]
  · intro params pn c acc hp hlk
    have h1 : (':' :: (pn ++ ('(' :: (c ++ [')', '?'])))).getLast? = some '?' := by
      rw [show ':' :: (pn ++ ('(' :: (c ++ [')', '?']))) =
        ((':' :: pn) ++ ('(' :: (c ++ [')']))) ++ ['?'] by simp, List.getLast?_concat]
    have h2 : (pn ++ ('(' :: (c ++ [')', '?']))).dropLast =
        pn ++ ('(' :: (c ++ [')'])) := by
      rw [show pn ++ ('(' :: (c ++ [')', '?'])) =
        (pn ++ ('(' :: (c ++ [')']))) ++ ['?'] by simp, List.dropLast_concat]
    simp only [processSegment, List.head?_cons, List.drop_succ_cons, List.drop_zero,
      h1, h2]
    simp [takeWhile_append_paren pn _ hp, hlk]

/-- Witness for C5: the three general clauses at the name `id` with
constraint text `\d+`. -/
theorem claim_C5_witness :
    processSegment [("id", ParamValue.num 42)] (["users"], [])
      (':' :: ("id".data ++ ('(' :: ("\\d+".data ++ [')'])))) = (["users", "42"], []) ∧
    processSegment [] (["users"], [])
      (':' :: ("id".data ++ ('(' :: ("\\d+".data ++ [')'])))) = (["users"], ["id"]) ∧
    processSegment [] (["users"], [])
      (':' :: ("id".data ++ ('(' :: ("\\d+".data ++ [')', '?'])))) = (["users"], []) :=
  ⟨claim_C5.1 [("id", ParamValue.num 42)] "id".data "\\d+".data
      (ParamValue.num 42) (["users"], []) (by decide) rfl,
   claim_C5.2.1 [] "id".data "\\d+".data (["users"], []) (by decide) rfl,
   claim_C5.2.2.1 [] "id".data "\\d+".data (["users"], []) (by decide) rfl⟩

/-! ## Percent-encoding round-trip lemmas -/

lemma charValid (c : Char) : c.toNat < 1114112 := by
  have h := c.valid
  unfold UInt32.isValidChar Nat.isValidChar at h
  have he : c.toNat = c.val.toNat := rfl
  rcases h with h | ⟨h1, h2⟩ <;> omega

lemma utf8Bytes_lt (n : Nat) (hn : n < 1114112) :
    ∀ b ∈ utf8Bytes n, b < 256 := by
  intro b hb
  unfold utf8Bytes at hb
  split at hb
  · simp at hb
    omega
  · split at hb
    · simp at hb
      rcases hb with h | h <;> omega
    · split at hb
      · simp at hb
        rcases hb with h | h | h <;> omega
      · simp at hb
        rcases hb with h | h | h | h <;> omega

lemma hexVal_toHexDigit : ∀ v < 16, hexVal (toHexDigit v) = some v := by decide

lemma percentToBytes_byte (b : Nat) (hb : b < 256) (rest : List Char) :
    percentToBytes (byteToPercent b ++ rest) = b :: percentToBytes rest := by
  have h1 := hexVal_toHexDigit (b / 16) (by omega)
  have h2 := hexVal_toHexDigit (b % 16) (by omega)
  simp [byteToPercent, percentToBytes, h1, h2]
  omega

lemma percentToBytes_flat (bs : List Nat) (h : ∀ b ∈ bs, b < 256) (rest : List Char) :
    percentToBytes (bs.flatMap byteToPercent ++ rest) = bs ++ percentToBytes rest := by
  induction bs with
  | nil => simp
  | cons b t ih =>
    simp only [List.mem_cons, forall_eq_or_imp] at h
    rw [List.flatMap_cons, List.append_assoc, percentToBytes_byte b h.1, ih h.2]
    simp

lemma unreserved_ne_percent (c : Char) (h : isUnreservedChar c = true) : c ≠ '%' := by
  intro he
  subst he
  simp [isUnreservedChar] at h

lemma percentToBytes_encodeChar (c : Char) (rest : List Char) :
    percentToBytes (encodeChar c ++ rest) =
      utf8Bytes c.toNat ++ percentToBytes rest := by
  by_cases h : isUnreservedChar c = true
  · have hc := unreserved_ne_percent c h
    simp only [encodeChar, if_pos h, List.cons_append, List.nil_append]
    rw [show percentToBytes (c :: rest) = utf8Bytes c.toNat ++ percentToBytes rest by
      simp [percentToBytes, hc]]
  · simp only [encodeChar, if_neg h]
    exact percentToBytes_flat _ (utf8Bytes_lt c.toNat (charValid c)) rest

lemma percentToBytes_encode (l : List Char) :
    percentToBytes (l.flatMap encodeChar) =
      l.flatMap (fun c => utf8Bytes c.toNat) := by
  induction l with
  | nil => rfl
  | cons c t ih => rw [List.flatMap_cons, percentToBytes_encodeChar, ih, List.flatMap_cons]

lemma utf8DecodeList_utf8Bytes (n : Nat) (hn : n < 1114112) (bs : List Nat) :
    utf8DecodeList (utf8Bytes n ++ bs) = Char.ofNat n :: utf8DecodeList bs := by
  unfold utf8Bytes
  by_cases h1 : n < 128
  · rw [if_pos h1, List.cons_append, List.nil_append, utf8DecodeList.eq_def]
    simp [h1]
  · by_cases h2 : n < 2048
    · have e1 : ¬(192 + n / 64 < 128) := by omega
      have e2 : 192 + n / 64 < 224 := by omega
      have e3 : (192 + n / 64 - 192) * 64 + (128 + n % 64 - 128) = n := by omega
      rw [if_neg h1, if_pos h2]
      rw [show ([192 + n / 64, 128 + n % 64] : List Nat) ++ bs =
        (192 + n / 64) :: (128 + n % 64) :: bs by simp]
      rw [utf8DecodeList.eq_def]
      simp only [if_neg e1, if_pos e2, List.length_cons, List.headD_cons,
        List.drop_succ_cons, List.drop_zero]
      rw [if_neg (by omega)]
      rw [e3]
    · by_cases h3 : n < 65536
      · have e1 : ¬(224 + n / 4096 < 128) := by omega
        have e2 : ¬(224 + n / 4096 < 224) := by omega
        have e3 : 224 + n / 4096 < 240 := by omega
        have e4 : (224 + n / 4096 - 224) * 4096 + (128 + n / 64 % 64 - 128) * 64 +
            (128 + n % 64 - 128) = n := by omega
        rw [if_neg h1, if_neg h2, if_pos h3]
        rw [show ([224 + n / 4096, 128 + n / 64 % 64, 128 + n % 64] : List Nat) ++ bs =
          (224 + n / 4096) :: (128 + n / 64 % 64) :: (128 + n % 64) :: bs by simp]
        rw [utf8DecodeList.eq_def]
        simp only [if_neg e1, if_neg e2, if_pos e3, List.length_cons, List.headD_cons,
          List.drop_succ_cons, List.drop_zero]
        rw [if_neg (by omega)]
        rw [e4]
      · have e1 : ¬(240 + n / 262144 < 128) := by omega
        have e2 : ¬(240 + n / 262144 < 224) := by omega
        have e3 : ¬(240 + n / 262144 < 240) := by omega
        have e4 : (240 + n / 262144 - 240) * 262144 + (128 + n / 4096 % 64 - 128) * 4096 +
            (128 + n / 64 % 64 - 128) * 64 + (128 + n % 64 - 128) = n := by omega
        rw [if_neg h1, if_neg h2, if_neg h3]
        rw [show ([240 + n / 262144, 128 + n / 4096 % 64, 128 + n / 64 % 64,
            128 + n % 64] : List Nat) ++ bs =
          (240 + n / 262144) :: (128 + n / 4096 % 64) :: (128 + n / 64 % 64) ::
            (128 + n % 64) :: bs by simp]
        rw [utf8DecodeList.eq_def]
        simp only [if_neg e1, if_neg e2, if_neg e3, List.length_cons, List.headD_cons,
          List.drop_succ_cons, List.drop_zero]
        rw [if_neg (by omega)]
        rw [e4]

lemma utf8DecodeList_flat (l : List Char) :
    utf8DecodeList (l.flatMap (fun c => utf8Bytes c.toNat)) = l := by
  induction l with
  | nil => rw [List.flatMap_nil, utf8DecodeList.eq_def]
  | cons c t ih =>
    rw [List.flatMap_cons, utf8DecodeList_utf8Bytes c.toNat (charValid c), ih,
      Char.ofNat_toNat]

lemma decode_encode (s : String) :
    decodeURIComponent (encodeURIComponent s) = s := by
  unfold decodeURIComponent encodeURIComponent
  rw [show (String.mk (s.data.flatMap encodeChar)).data = s.data.flatMap encodeChar
    from rfl]
  rw [percentToBytes_encode, utf8DecodeList_flat]

/-! ## C7: percent-encoding of present values, and its round-trip -/

/-- C7: a placeholder whose value is present is replaced by the
percent-encoding of the value's string form; this encoding round-trips
(decoding an encoded string always reproduces the original), and the
spec's concrete example holds, including decoding the produced segment
back to the original value. -/
theorem claim_C7 :
    (∀ s : String, decodeURIComponent (encodeURIComponent s) = s) ∧
    (∀ (params : List (String × ParamValue)) (pn : List Char) (v : ParamValue)
      (acc : List String × List String),
      '(' ∉ pn → pn.getLast? ≠ some '?' → params.lookup (String.mk pn) = some v →
      processSegment params acc (':' :: pn) =
        (acc.1 ++ [encodeURIComponent (valueToString v)], acc.2)) ∧
    interpolatePathParams "search/:query" [("query", .str "hello world & stuff")] =
      .ok ["search", "hello%20world%20%26%20stuff"] ∧
    decodeURIComponent "hello%20world%20%26%20stuff" = "hello world & stuff" := by
  refine ⟨decode_encode, ?_, rfl, ?_⟩
  · intro params pn v acc hp hq hlk
    have h1 : (':' :: pn).getLast? ≠ some '?' := by
      cases pn with
      | nil => simp
      | cons a t => rw [List.getLast?_cons_cons]; exact hq
    simp only [processSegment, List.head?_cons, if_neg h1, List.drop_succ_cons,
      List.drop_zero]
    simp [takeWhile_ne_all pn hp, hlk]
  · rw [show "hello%20world%20%26%20stuff" =
      encodeURIComponent "hello world & stuff" from rfl, decode_encode]

/-- Witness for C7 at the spec's concrete query parameter. -/
theorem claim_C7_witness :
    processSegment [("query", ParamValue.str "hello world & stuff")] (["search"], [])
      (':' :: "query".data) = (["search", "hello%20world%20%26%20stuff"], []) :=
  claim_C7.2.1 [("query", ParamValue.str "hello world & stuff")] "query".data
    (ParamValue.str "hello world & stuff") (["search"], []) (by decide) (by decide) rfl

/-! ## C6: empty pattern vs zero-segment pattern; all-literal patterns -/

/-- C6: an empty pattern maps to the single-element sequence containing
the root segment, while a non-empty pattern that resolves to zero
segments returns the empty sequence — two distinct results; a non-empty
pattern is split on the separator with empty pieces discarded, and an
all-literal pattern returns exactly its pieces. -/
theorem claim_C6 :
    (∀ params, interpolatePathParams "" params = .ok ["/"]) ∧
    interpolatePathParams ":id?" [] = .ok [] ∧
    (Except.ok ["/"] ≠ (Except.ok [] : Except String (List String))) ∧
    (∀ (pattern : String) (params : List (String × ParamValue)),
      pattern ≠ "" →
      (∀ s ∈ (splitSlash pattern.data).filter (fun s => 0 < s.length),
        s.head? ≠ some ':') →
      interpolatePathParams pattern params =
        .ok (((splitSlash pattern.data).filter (fun s => 0 < s.length)).map
          String.mk)) := by
  refine ⟨fun params => rfl, rfl, by simp, ?_⟩
  intro pattern params hne hlit
  simp only [interpolatePathParams, if_neg hne]
  rw [foldl_literal params _ ([], []) hlit]
  simp

/-- Witness for C6: the all-literal clause at the pattern
`a//b/` (with empty pieces discarded). -/
theorem claim_C6_witness :
    interpolatePathParams "a//b/" [] = .ok ["a", "b"] :=
  claim_C6.2.2.2 "a//b/" [] (by decide) (by decide)

/-- Witness for C10 as amended: the duplicate-name failure (traversal
failure) leaves a retryable state, and the missing-configuration
failure leaves the stale pending reference joined by the next call. -/
theorem claim_C10_witness :
    ((⟨[("dup", "first")], false, none⟩ : ServiceState).pendingId = none ∧
    (⟨[("dup", "first")], false, none⟩ : ServiceState).isInitialized = false ∧
    initializeCall (⟨[("dup", "first")], false, none⟩ : ServiceState) 9 =
      (.started 9, ⟨[("dup", "first")], false, some 9⟩)) ∧
    ((⟨[], false, some 0⟩ : ServiceState).pendingId = some 0 ∧
    (⟨[], false, some 0⟩ : ServiceState).isInitialized = false ∧
    initializeCall (⟨[], false, some 0⟩ : ServiceState) 1 =
      (.joinedPending 0, ⟨[], false, some 0⟩)) :=
  ⟨claim_C10_amended.1 initialState dupConfig 0 9 (.duplicate "dup" "first" "second")
    ⟨[("dup", "first")], false, none⟩ rfl rfl rfl,
   claim_C10_amended.2 initialState 0 1 (.named ("Router configuration is not available. " ++
      "Ensure the router is properly configured.")) ⟨[], false, some 0⟩ rfl rfl rfl⟩


example :
    buildRouteMap [] [.mk "" "root" [] none, .mk "users/" "users" [] none] "" =
      (.ok (), [("root", ""), ("users", "users/")]) := by rfl

end NgxNamedRouter
